import Mathlib

/-!
Verification of the db-benchmark repository: a shallow embedding of the
statistics engine (`utils/benchmark_utils.py`), the four store adaptors
(`adaptors/sqlite_adaptor.py`, `mysql_adaptor.py`, `mongodb_adaptor.py`,
`redis_adaptor.py`) and the isolated-mode reset bodies of `runner.py`,
together with theorems settling the frozen claims about them.

Durations (Python floats) are modelled as rationals; database handles are
replaced by explicit store states.  Each definition mirrors one Python
function of the repository and keeps its name.
-/

namespace BenchUtils

/-- Mirrors `statistics.median` as used by `benchmark_utils.summarise`:
sort the sample, take the middle element, or the average of the two middle
elements when the length is even. -/
def median (xs : List ℚ) : ℚ :=
  let s := List.insertionSort (· ≤ ·) xs
  let n := s.length
  if n % 2 = 1 then s.getD (n / 2) 0
  else (s.getD (n / 2 - 1) 0 + s.getD (n / 2) 0) / 2

/-- Mirrors `benchmark_utils.summarise`: builds the stats dict (modelled as an
association list in the dict's insertion order).  Note the source takes
`xs[0]` for `"min"` and `xs[-1]` for `"max"`, `statistics.fmean` for
`"mean"` and `statistics.median` for `"median"`; for an empty sample all
entries are zero. -/
def summarise (durations : List ℚ) : List (String × ℚ) :=
  let xs := durations
  let n := xs.length
  if n = 0 then
    [("n", 0), ("min", 0), ("max", 0), ("mean", 0), ("median", 0)]
  else
    [("n", (n : ℚ)),
     ("min", xs.headD 0),
     ("max", xs.getLastD 0),
     ("mean", xs.sum / (n : ℚ)),
     ("median", median xs)]

end BenchUtils

namespace Sqlite

/-- State of the SQLite `records` table: the stored rows in physical (rowid)
order together with the `sqlite_sequence` auto-increment watermark. -/
structure Store where
  rows : List (Nat × String)
  seq : Nat
deriving DecidableEq, Repr

/-- The identities of the live rows, in storage order. -/
def ids (st : Store) : List Nat := st.rows.map Prod.fst

/-- Mirrors `sqlite_adaptor.insert_records`: each value is appended as a new
row whose id is the next auto-increment value. -/
def insert_records (records : List String) (st : Store) : Store :=
  { rows := st.rows ++
      List.zip ((List.range records.length).map (fun i => st.seq + 1 + i)) records,
    seq := st.seq + records.length }

/-- Mirrors `sqlite_adaptor.read_all`: `SELECT * FROM records` returns the
rows in storage order. -/
def read_all (st : Store) : List (Nat × String) := st.rows

/-- Mirrors `sqlite_adaptor.update_record`:
`UPDATE records SET name = ? WHERE id = ?`. -/
def update_record (record_id : Nat) (new_value : String) (st : Store) : Store :=
  { st with rows := st.rows.map (fun r => if r.1 = record_id then (r.1, new_value) else r) }

/-- Mirrors `sqlite_adaptor.delete_record`: the `record_id` parameter is
ignored and `DELETE FROM records WHERE id = (SELECT MAX(id) FROM records)`
is executed; when the table is empty the subquery is NULL and nothing
matches. -/
def delete_record (record_id : Option Nat) (st : Store) : Store :=
  { st with rows :=
      match (st.rows.map Prod.fst).max? with
      | none => st.rows
      | some m => st.rows.filter (fun r => r.1 != m) }

/-- Mirrors `sqlite_adaptor.reset_table`: delete all rows and clear the
`sqlite_sequence` entry, so ids restart at 1. -/
def reset_table (_st : Store) : Store := { rows := [], seq := 0 }

/-- Well-formedness of a reachable SQLite table state: ids strictly increase
in storage order and never exceed the auto-increment watermark. -/
def Wf (st : Store) : Prop :=
  (st.rows.map Prod.fst).Pairwise (· < ·) ∧ ∀ i ∈ st.rows.map Prod.fst, i ≤ st.seq

end Sqlite

namespace Mysql

/-- State of the MySQL `records` table: stored rows plus the
`AUTO_INCREMENT` watermark. -/
structure Store where
  rows : List (Nat × String)
  seq : Nat
deriving DecidableEq, Repr

/-- The identities of the live rows, in storage order. -/
def ids (st : Store) : List Nat := st.rows.map Prod.fst

/-- Mirrors `mysql_adaptor.insert_records`. -/
def insert_records (records : List String) (st : Store) : Store :=
  { rows := st.rows ++
      List.zip ((List.range records.length).map (fun i => st.seq + 1 + i)) records,
    seq := st.seq + records.length }

/-- Mirrors `mysql_adaptor.read_all`: `SELECT * FROM records`. -/
def read_all (st : Store) : List (Nat × String) := st.rows

/-- Mirrors `mysql_adaptor.update_record`. -/
def update_record (record_id : Nat) (new_value : String) (st : Store) : Store :=
  { st with rows := st.rows.map (fun r => if r.1 = record_id then (r.1, new_value) else r) }

/-- Mirrors `mysql_adaptor.delete_record`: ignores `record_id` and deletes
the row with the highest id (no-op on an empty table). -/
def delete_record (record_id : Option Nat) (st : Store) : Store :=
  { st with rows :=
      match (st.rows.map Prod.fst).max? with
      | none => st.rows
      | some m => st.rows.filter (fun r => r.1 != m) }

/-- Mirrors `mysql_adaptor.reset_table`: `TRUNCATE TABLE records` removes
all rows and resets `AUTO_INCREMENT`. -/
def reset_table (_st : Store) : Store := { rows := [], seq := 0 }

/-- Well-formedness of a reachable MySQL table state. -/
def Wf (st : Store) : Prop :=
  (st.rows.map Prod.fst).Pairwise (· < ·) ∧ ∀ i ∈ st.rows.map Prod.fst, i ≤ st.seq

end Mysql

namespace Mongo

/-- State of the MongoDB database: the `records` collection in natural
(insertion) order, each document projected to its `seq` and `name` fields,
plus the `meta` collection's counter document (`none` when the document with
`_id = "record_seq"` does not exist, `some v` when it holds `value = v`). -/
structure Db where
  docs : List (Int × String)
  counter : Option Int
deriving DecidableEq, Repr

/-- Fixed id of the counter document (`SEQ_DOC_ID` in the source). -/
def SEQ_DOC_ID : String := "record_seq"

/-- Mirrors `mongodb_adaptor._next_seqs`: for `n <= 0` return `[]` without
touching the counter; otherwise atomically `$inc` the counter document by
`n` (upserted, so a missing document behaves as value 0) and return
`list(range(end_value - n + 1, end_value + 1))`. -/
def next_seqs (n : Int) (db : Db) : List Int × Db :=
  if n ≤ 0 then ([], db)
  else
    let end_value : Int := db.counter.getD 0 + n
    let start_value : Int := end_value - n + 1
    ((List.range n.toNat).map (fun i : Nat => start_value + (i : Int)),
     { db with counter := some end_value })

/-- Mirrors `mongodb_adaptor.insert_records`: reserve `len(records)` seqs and
`insert_many` the zipped documents. -/
def insert_records (records : List String) (db : Db) : Db :=
  let r := next_seqs (records.length : Int) db
  { r.2 with docs := r.2.docs ++ List.zip r.1 records }

/-- Mirrors `mongodb_adaptor.read_all`: all documents sorted ascending by
`seq`. -/
def read_all (db : Db) : List (Int × String) :=
  List.insertionSort (fun a b => a.1 ≤ b.1) db.docs

/-- Mirrors `mongodb_adaptor.read_by_id`: `find_one({"seq": seq})` returns
the first matching document, or `None` which the adaptor passes through. -/
def read_by_id (seq : Int) (db : Db) : Option (Int × String) :=
  db.docs.find? (fun d => d.1 == seq)

/-- Helper for `update_one`: replace the `name` of the first document whose
`seq` matches, leaving everything else alone. -/
def set_first : List (Int × String) → Int → String → List (Int × String)
  | [], _, _ => []
  | d :: ds, s, nm => if d.1 = s then (d.1, nm) :: ds else d :: set_first ds s nm

/-- Mirrors `mongodb_adaptor.update_record`:
`update_one({"seq": seq}, {"$set": {"name": new_name}})` (matched-zero-rows
is a no-op). -/
def update_record (seq : Int) (new_name : String) (db : Db) : Db :=
  { db with docs := set_first db.docs seq new_name }

/-- Mirrors `mongodb_adaptor.delete_record`: with an explicit `seq`,
`delete_one({"seq": seq})` removes the first matching document; with `seq`
omitted, `find_one_and_delete({}, sort=[("seq", -1)])` removes a document
with the highest seq (no-op on an empty collection). -/
def delete_record (seq : Option Int) (db : Db) : Db :=
  match seq with
  | some s => { db with docs := db.docs.eraseP (fun d => d.1 == s) }
  | none =>
    { db with docs :=
        match (db.docs.map Prod.fst).max? with
        | none => db.docs
        | some m => db.docs.eraseP (fun d => d.1 == m) }

/-- Models the body of the `isolated_insert` closure in `runner.py`'s
MongoDB isolated branch (and the reset prelude of `isolated_update` /
`isolated_delete`): `db.records.drop()` followed by
`insert_records(db, records)`.  The `meta` counter document is not touched
by the drop. -/
def isolated_rebaseline (records : List String) (db : Db) : Db :=
  insert_records records { db with docs := [] }

end Mongo

namespace Redis

/-- State of the Redis keyspace: an association list from keys to string
values (first binding wins, mirroring a key-value map). -/
abbrev Store := List (String × String)

/-- Mirrors `redis_adaptor.SEQ_KEY`, the counter key. -/
def SEQ_KEY : String := "record:seq"

/-- Mirrors `redis_adaptor._key`: `f"record:{i}"`. -/
def key (i : Nat) : String := "record:" ++ Nat.repr i

/-- Python `str.isdigit` on the characters of a key suffix: non-empty and
all digits. -/
def digitsOnly (l : List Char) : Bool := !l.isEmpty && l.all Char.isDigit

/-- Python `int(...)` on an all-digit string, as a fold over its
characters. -/
def digitsToNat (l : List Char) : Nat :=
  l.foldl (fun n c => n * 10 + (c.toNat - 48)) 0

/-- Python `s.split(":")`: split a character list on every colon, keeping
empty parts. -/
def splitColon : List Char → List (List Char)
  | [] => [[]]
  | c :: cs =>
    if c = ':' then [] :: splitColon cs
    else
      match splitColon cs with
      | p :: ps => (c :: p) :: ps
      | [] => [[c]]

/-- Mirrors one iteration of `redis_adaptor._numeric_ids`: a key contributes
an id when it matches the `KEYS "record:*"` pattern, splits on `":"` into
exactly two parts, and its suffix is purely numeric. -/
def parseRecordKey (k : String) : Option Nat :=
  if "record:".data.isPrefixOf k.data then
    match splitColon k.data with
    | [_, suffix] => if digitsOnly suffix then some (digitsToNat suffix) else none
    | _ => none
  else none

/-- Mirrors `redis_adaptor._numeric_ids`: the numeric ids of all live
`record:<n>` keys (the counter key and any non-numeric key are skipped). -/
def numeric_ids (st : Store) : List Nat :=
  (st.map Prod.fst).filterMap parseRecordKey

/-- Redis `SET key value`: bind `key` to `value`, replacing any previous
binding. -/
def kvSet (k v : String) (st : Store) : Store :=
  (k, v) :: st.filter (fun p => p.1 != k)

/-- Redis `DEL key`. -/
def kvDel (k : String) (st : Store) : Store :=
  st.filter (fun p => p.1 != k)

/-- Python `int(...)` on a stored string (used to model `INCR` parsing the
current counter value). -/
def strToNat (s : String) : Nat := digitsToNat s.data

/-- The per-record loop of `redis_adaptor.insert_records`: for each value,
`INCR` the counter key to obtain the next id and set `record:<id>` to the
value.  (The source batches the `SET`s in a pipeline; the `INCR`s happen
eagerly and the record-key writes never affect the counter reads, so the
sequential interleaving is equivalent.) -/
def insertLoop : List String → Store → Store
  | [], st => st
  | v :: vs, st =>
    let new_id := strToNat ((st.lookup SEQ_KEY).getD "0") + 1
    insertLoop vs (kvSet (key new_id) v (kvSet SEQ_KEY (Nat.repr new_id) st))

/-- Mirrors `redis_adaptor.insert_records`: if the counter key does not
exist, initialise it to the maximum existing numeric id (or 0), then insert
each value under the next id. -/
def insert_records (records : List String) (st : Store) : Store :=
  let st1 :=
    if (st.lookup SEQ_KEY).isSome then st
    else kvSet SEQ_KEY (Nat.repr ((numeric_ids st).max?.getD 0)) st
  insertLoop records st1

/-- Mirrors `redis_adaptor.read_all`: fetch each numeric id in sorted order
together with `GET record:<id>` (`none` models a `None` reply). -/
def read_all (st : Store) : List (Nat × Option String) :=
  (List.insertionSort (· ≤ ·) (numeric_ids st)).map (fun i => (i, st.lookup (key i)))

/-- Mirrors `redis_adaptor.update_record`: a bare `SET record:<id> value`,
which creates the key when it does not exist. -/
def update_record (record_id : Nat) (new_value : String) (st : Store) : Store :=
  kvSet (key record_id) new_value st

/-- Mirrors `redis_adaptor.delete_record`: the `record_id` parameter is
ignored; if any numeric ids exist, delete the key with the highest one. -/
def delete_record (record_id : Option Nat) (st : Store) : Store :=
  match (numeric_ids st).max? with
  | none => st
  | some m => kvDel (key m) st

/-- Mirrors `redis_adaptor.read_by_id`: always returns the pair
`(record_id, GET record:<id>)`; the value slot is `none` exactly when the
key is absent. -/
def read_by_id (record_id : Nat) (st : Store) : Nat × Option String :=
  (record_id, st.lookup (key record_id))

/-- Mirrors `redis_adaptor.filter_contains`: keep the records (in ascending
id order) whose value contains the substring (a missing value is treated as
`""`). -/
def filter_contains (substring : String) (st : Store) : List (Nat × String) :=
  (List.insertionSort (· ≤ ·) (numeric_ids st)).filterMap (fun i =>
    let v := (st.lookup (key i)).getD ""
    if substring.data.IsInfix v.data then some (i, v) else none)

/-- Mirrors `redis_adaptor.reset_store`: `FLUSHDB`. -/
def reset_store (_st : Store) : Store := []

end Redis

namespace Runner

/-- Models the body of the `isolated_insert` closure in `runner.py`'s
SQLite/MySQL isolated branch (and the reset prelude of `isolated_update` /
`isolated_delete`): `reset_table` followed by `insert_records`. -/
def sqlite_rebaseline (records : List String) (st : Sqlite.Store) : Sqlite.Store :=
  Sqlite.insert_records records (Sqlite.reset_table st)

end Runner

section DecimalLemmas

/-- Rendering a value below ten with `Nat.digitChar` yields a digit character. -/
lemma digitChar_isDigit {n : Nat} (h : n < 10) : (Nat.digitChar n).isDigit := by
  interval_cases n <;> decide

/-- Numeric value of `Nat.digitChar` below ten. -/
lemma digitChar_toNat {n : Nat} (h : n < 10) : (Nat.digitChar n).toNat - 48 = n := by
  interval_cases n <;> decide

/-- Running `Nat.toDigitsCore` only prepends to its accumulator. -/
lemma toDigitsCore_append (f n : Nat) (ds : List Char) :
    Nat.toDigitsCore 10 f n ds = Nat.toDigitsCore 10 f n [] ++ ds := by
  induction f generalizing n ds with
  | zero => simp [Nat.toDigitsCore]
  | succ f ih =>
    simp only [Nat.toDigitsCore]
    by_cases h : n / 10 = 0
    · simp [h]
    · simp only [h, if_false]
      rw [ih (n / 10) (Nat.digitChar (n % 10) :: ds), ih (n / 10) [Nat.digitChar (n % 10)]]
      simp

/-- Every character produced by base-10 `Nat.toDigitsCore` over a digit
accumulator is a digit. -/
lemma toDigitsCore_digits (f n : Nat) (ds : List Char) (hds : ∀ c ∈ ds, c.isDigit) :
    ∀ c ∈ Nat.toDigitsCore 10 f n ds, c.isDigit := by
  induction f generalizing n ds with
  | zero => simpa [Nat.toDigitsCore] using hds
  | succ f ih =>
    simp only [Nat.toDigitsCore]
    by_cases h : n / 10 = 0
    · simp only [h, if_true]
      intro c hc
      rcases List.mem_cons.1 hc with rfl | hc
      · exact digitChar_isDigit (Nat.mod_lt _ (by norm_num))
      · exact hds c hc
    · simp only [h, if_false]
      refine ih (n / 10) _ ?_
      intro c hc
      rcases List.mem_cons.1 hc with rfl | hc
      · exact digitChar_isDigit (Nat.mod_lt _ (by norm_num))
      · exact hds c hc

/-- Evaluating the base-10 digit string of `n` with the decimal fold
recovers `n` (shifted past any previous accumulator value). -/
lemma toDigitsCore_val (f n : Nat) (hf : n < f) (a : Nat) :
    (Nat.toDigitsCore 10 f n []).foldl (fun x c => x * 10 + (c.toNat - 48)) a =
      a * 10 ^ (Nat.toDigitsCore 10 f n []).length + n := by
  induction f generalizing n a with
  | zero => omega
  | succ f ih =>
    simp only [Nat.toDigitsCore]
    by_cases h : n / 10 = 0
    · have hn : n < 10 := by omega
      have hmod : n % 10 = n := Nat.mod_eq_of_lt hn
      simp [h, hmod, digitChar_toNat hn]
    · have hrec : n / 10 < f := by
        have h1 : n / 10 < n := Nat.div_lt_self (by omega) (by norm_num)
        omega
      simp only [h, if_false]
      rw [toDigitsCore_append]
      rw [List.foldl_append]
      rw [ih (n / 10) hrec a]
      simp only [List.foldl_cons, List.foldl_nil]
      rw [digitChar_toNat (Nat.mod_lt _ (by norm_num))]
      rw [List.length_append]
      simp only [List.length_cons, List.length_nil]
      ring_nf
      omega

/-- The characters of `Nat.repr`. -/
lemma repr_data (n : Nat) : (Nat.repr n).data = Nat.toDigitsCore 10 (n + 1) n [] := rfl

/-- Every character of the decimal representation of a natural number is a
digit. -/
lemma repr_all_digits (n : Nat) : ∀ c ∈ (Nat.repr n).data, c.isDigit := by
  rw [repr_data]
  exact toDigitsCore_digits _ _ _ (by simp)

/-- The decimal fold of `redis_adaptor`'s id parsing inverts `Nat.repr`
(Python `int(str(n)) == n`). -/
lemma digitsToNat_repr (n : Nat) : Redis.digitsToNat (Nat.repr n).data = n := by
  rw [repr_data, Redis.digitsToNat]
  simpa using toDigitsCore_val (n + 1) n (Nat.lt_succ_self n) 0

/-- Decimal rendering never produces the literal suffix `"seq"`. -/
lemma repr_ne_seq (n : Nat) : Nat.repr n ≠ "seq" := by
  intro h
  have hs : ('s' : Char).isDigit := by
    have hd := repr_all_digits n
    rw [h] at hd
    exact hd 's' (by decide)
  exact absurd hs (by decide)

/-- Decimal rendering of naturals is injective. -/
lemma repr_injective : Function.Injective Nat.repr := by
  intro a b h
  have hv := digitsToNat_repr a
  rw [h, digitsToNat_repr] at hv
  omega

end DecimalLemmas

section RedisKeyLemmas

/-- A record key `record:<i>` is never the counter key `record:seq`. -/
lemma Redis.key_ne_seq_key (i : Nat) : Redis.key i ≠ Redis.SEQ_KEY := by
  intro h
  have hdata : ("record:" ++ Nat.repr i).data = ("record:seq" : String).data := by
    rw [show ("record:" ++ Nat.repr i : String) = Redis.SEQ_KEY from h]; rfl
  rw [String.data_append] at hdata
  have : (Nat.repr i).data = ("seq" : String).data := by
    have h7 : ("record:" : String).data ++ (Nat.repr i).data =
        ("record:" : String).data ++ ("seq" : String).data := hdata
    exact List.append_cancel_left h7
  exact repr_ne_seq i (by
    apply String.ext
    simpa using this)

/-- Record keys are injective in the id. -/
lemma Redis.key_injective : Function.Injective Redis.key := by
  intro a b h
  apply repr_injective
  apply String.ext
  have : ("record:" ++ Nat.repr a).data = ("record:" ++ Nat.repr b).data := by
    rw [show ("record:" ++ Nat.repr a : String) = Redis.key b from h]; rfl
  rw [String.data_append, String.data_append] at this
  exact List.append_cancel_left this

/-- Looking up the key just written by `SET`. -/
lemma Redis.lookup_kvSet_self (k v : String) (st : Redis.Store) :
    (Redis.kvSet k v st).lookup k = some v := by
  simp [Redis.kvSet]

/-- Filtering out another key's bindings does not change a lookup. -/
lemma Redis.lookup_filter_ne {k k' : String} (h : k' ≠ k) (st : Redis.Store) :
    (st.filter (fun p => p.1 != k)).lookup k' = st.lookup k' := by
  induction st with
  | nil => rfl
  | cons p st ih =>
    obtain ⟨pk, pv⟩ := p
    rw [List.filter_cons]
    by_cases hp : pk = k
    · rw [if_neg (by simp [hp])]
      have h2 : (k' == pk) = false := by subst hp; simpa using h
      rw [ih]
      simp [List.lookup, h2]
    · rw [if_pos (by simpa using hp)]
      by_cases hk2 : k' = pk
      · subst hk2
        simp [List.lookup]
      · have h2 : (k' == pk) = false := by simpa using hk2
        simp [List.lookup, h2, ih]

/-- Redis `SET` leaves lookups of other keys unchanged. -/
lemma Redis.lookup_kvSet_ne {k k' : String} (h : k' ≠ k) (v : String) (st : Redis.Store) :
    (Redis.kvSet k v st).lookup k' = st.lookup k' := by
  have hk : (k' == k) = false := by simpa using h
  simp [Redis.kvSet, List.lookup, hk, Redis.lookup_filter_ne h]

/-- Redis `DEL` leaves lookups of other keys unchanged. -/
lemma Redis.lookup_kvDel_ne {k k' : String} (h : k' ≠ k) (st : Redis.Store) :
    (Redis.kvDel k st).lookup k' = st.lookup k' :=
  Redis.lookup_filter_ne h st

end RedisKeyLemmas

section UpdateLemmas

/-- The SQL `UPDATE ... WHERE id = ?` row transformation is the identity
when no row carries the id. -/
lemma update_rows_not_mem {rows : List (Nat × String)} {i : Nat} {v : String}
    (h : i ∉ rows.map Prod.fst) :
    rows.map (fun r => if r.1 = i then (r.1, v) else r) = rows := by
  induction rows with
  | nil => rfl
  | cons r rs ih =>
    simp only [List.map_cons, List.mem_cons] at h
    push_neg at h
    rw [List.map_cons, if_neg (fun hr => h.1 hr.symm), ih h.2]

/-- Applying `set_first` (MongoDB `update_one`) is the identity when no document
matches the seq. -/
lemma Mongo.set_first_not_mem {docs : List (Int × String)} {s : Int} {nm : String}
    (h : ∀ d ∈ docs, d.1 ≠ s) : Mongo.set_first docs s nm = docs := by
  induction docs with
  | nil => rfl
  | cons d ds ih =>
    rw [Mongo.set_first, if_neg (h d (List.mem_cons_self d ds))]
    rw [ih (fun x hx => h x (List.mem_cons_of_mem d hx))]

end UpdateLemmas

/-- Claim C2: the code of `summarise` reports the first element of the
duration sample as `"min"` and the last element as `"max"`, contradicting
both the spec (smallest/largest element) and the source's own
`Fastest`/`Slowest` comments: on the sample `[0.2, 0.1]` it reports
`min = 0.2` and `max = 0.1`, while the smallest element is `0.1` and the
largest `0.2`. -/
theorem C2_min_max_code_evaluation :
    (BenchUtils.summarise [1/5, 1/10]).lookup "min" = some (1/5)
    ∧ (BenchUtils.summarise [1/5, 1/10]).lookup "max" = some (1/10)
    ∧ ([1/5, 1/10] : List ℚ).min? = some (1/10)
    ∧ ([1/5, 1/10] : List ℚ).max? = some (1/5) := by
  refine ⟨?_, ?_, ?_, ?_⟩
  · norm_num [BenchUtils.summarise, BenchUtils.median, List.insertionSort,
      List.orderedInsert, List.lookup]; rfl
  · norm_num [BenchUtils.summarise, BenchUtils.median, List.insertionSort,
      List.orderedInsert, List.lookup]; rfl
  · norm_num [List.min?]
  · norm_num [List.max?]

/-- Claim C4 counterexample: for the Duration Sample `[0.1, 0.2, 0.3, 0.4]`
the summary produced by `summarise` contains no `"p25"`, `"p75"` or `"iqr"`
entry at all, so it cannot have `p25 = 0.175`, `p75 = 0.325`, `iqr = 0.15`. -/
theorem C4_percentiles_counterexample :
    (BenchUtils.summarise [1/10, 2/10, 3/10, 4/10]).lookup "p25" = none
    ∧ (BenchUtils.summarise [1/10, 2/10, 3/10, 4/10]).lookup "p75" = none
    ∧ (BenchUtils.summarise [1/10, 2/10, 3/10, 4/10]).lookup "iqr" = none := by
  refine ⟨?_, ?_, ?_⟩ <;>
    (norm_num [BenchUtils.summarise, BenchUtils.median, List.insertionSort,
      List.orderedInsert, List.lookup]; rfl)

/-- Claim C4 (amended): the Summary Statistics of any Duration Sample
consist of exactly the entries `n`, `min`, `max`, `mean`, `median` — no
percentile or iqr entries are computed — and for the sample
`[0.1, 0.2, 0.3, 0.4]` the median entry is `0.25`. -/
theorem C4_summary_keys_and_median :
    (∀ xs : List ℚ,
      (BenchUtils.summarise xs).map Prod.fst = ["n", "min", "max", "mean", "median"])
    ∧ (BenchUtils.summarise [1/10, 2/10, 3/10, 4/10]).lookup "median" = some (1/4) := by
  constructor
  · intro xs
    rw [BenchUtils.summarise]
    by_cases h : xs.length = 0
    · simp [h]
    · simp [h]
  · norm_num [BenchUtils.summarise, BenchUtils.median, List.insertionSort,
      List.orderedInsert, List.lookup]; rfl

/-- Claim C3 counterexample: the Redis adaptor's `update_record` on an
identity held by no record does not leave the record set unchanged — it
creates the record.  Updating id 5 on an empty store yields a store whose
`read_all` returns the new record `(5, "x")`. -/
theorem C3_update_missing_counterexample :
    Redis.update_record 5 "x" ([] : Redis.Store) = [("record:5", "x")]
    ∧ Redis.read_all (Redis.update_record 5 "x" ([] : Redis.Store)) = [(5, some "x")]
    ∧ Redis.read_all ([] : Redis.Store) = [] := by
  refine ⟨by decide, by decide, by decide⟩

/-- Claim C3 (amended): for the SQLite, MySQL and MongoDB adaptors,
updating an identity held by no record leaves the store unchanged and
raises no error; the Redis adaptor instead performs a bare `SET`, which
binds the record key to the new value (creating the record if absent). -/
theorem C3_update_missing_amended :
    ∀ (record_id : Nat) (v : String) (st : Sqlite.Store) (mst : Mysql.Store)
      (seq : Int) (nm : String) (db : Mongo.Db) (rid : Nat) (rv : String)
      (rst : Redis.Store),
      record_id ∉ st.rows.map Prod.fst →
      record_id ∉ mst.rows.map Prod.fst →
      (∀ d ∈ db.docs, d.1 ≠ seq) →
      (Sqlite.update_record record_id v st = st
       ∧ Mysql.update_record record_id v mst = mst
       ∧ Mongo.update_record seq nm db = db
       ∧ (Redis.update_record rid rv rst).lookup (Redis.key rid) = some rv) := by
  intro record_id v st mst seq nm db rid rv rst h1 h2 h3
  refine ⟨?_, ?_, ?_, ?_⟩
  · cases st with
    | mk rows sq => simp [Sqlite.update_record, update_rows_not_mem h1]
  · cases mst with
    | mk rows sq => simp [Mysql.update_record, update_rows_not_mem h2]
  · cases db with
    | mk docs ctr => simp [Mongo.update_record, Mongo.set_first_not_mem h3]
  · exact Redis.lookup_kvSet_self _ _ _

section ErasePLemmas

/-- Membership after `delete_one`/`eraseP` by seq, under distinct seqs:
exactly the documents with a different seq remain. -/
lemma Mongo.mem_eraseP_nodup {docs : List (Int × String)} {s : Int}
    (h : (docs.map Prod.fst).Nodup) (d : Int × String) :
    d ∈ docs.eraseP (fun x => x.1 == s) ↔ (d ∈ docs ∧ d.1 ≠ s) := by
  induction docs with
  | nil => simp
  | cons a l ih =>
    rw [List.map_cons, List.nodup_cons] at h
    by_cases ha : a.1 = s
    · rw [List.eraseP_cons_of_pos (by simpa using ha)]
      constructor
      · intro hd
        refine ⟨List.mem_cons_of_mem a hd, ?_⟩
        intro hds
        have hmem : d.1 ∈ l.map Prod.fst := List.mem_map_of_mem Prod.fst hd
        rw [hds, ← ha] at hmem
        exact h.1 hmem
      · rintro ⟨hd, hne⟩
        rcases List.mem_cons.1 hd with rfl | hd
        · exact absurd ha hne
        · exact hd
    · rw [List.eraseP_cons_of_neg (by simpa using ha)]
      constructor
      · intro hd
        rcases List.mem_cons.1 hd with rfl | hd
        · exact ⟨List.mem_cons_self _ _, ha⟩
        · have hr := (ih h.2).1 hd
          exact ⟨List.mem_cons_of_mem a hr.1, hr.2⟩
      · rintro ⟨hd, hne⟩
        rcases List.mem_cons.1 hd with rfl | hd
        · exact List.mem_cons_self _ _
        · exact List.mem_cons_of_mem a ((ih h.2).2 ⟨hd, hne⟩)

end ErasePLemmas

/-- Claim C1 counterexample: `sqlite_adaptor.delete_record` ignores the
explicit identity.  On a store holding ids 1 and 2, deleting with explicit
identity 1 leaves `(1, "a")` in place and removes `(2, "b")` instead. -/
theorem C1_delete_explicit_id_counterexample :
    (Sqlite.delete_record (some 1) ⟨[(1, "a"), (2, "b")], 2⟩).rows = [(1, "a")]
    ∧ (1, "a") ∈ (Sqlite.delete_record (some 1) ⟨[(1, "a"), (2, "b")], 2⟩).rows
    ∧ (2, "b") ∉ (Sqlite.delete_record (some 1) ⟨[(1, "a"), (2, "b")], 2⟩).rows := by
  refine ⟨by decide, by decide, by decide⟩

/-- Claim C1 (amended): only the MongoDB adaptor honours an explicit
identity on delete (removing exactly that record if present, a no-op
otherwise); the SQLite, MySQL and Redis adaptors ignore any supplied
identity and always remove the record with the highest current identity;
on an empty store every form is a no-op with no error (the membership
characterisations below subsume the empty case, where the maximum is
`none`). -/
theorem C1_delete_semantics_amended :
    ∀ (a1 : Option Nat) (st : Sqlite.Store) (a2 : Option Nat) (mst : Mysql.Store)
      (s : Int) (db : Mongo.Db) (a4 : Option Nat) (rst : Redis.Store),
      (db.docs.map Prod.fst).Nodup →
      ((∀ r, r ∈ (Sqlite.delete_record a1 st).rows ↔
          (r ∈ st.rows ∧ some r.1 ≠ (st.rows.map Prod.fst).max?))
       ∧ (Sqlite.delete_record a1 st).seq = st.seq
       ∧ Sqlite.delete_record a1 st = Sqlite.delete_record none st
       ∧ (∀ r, r ∈ (Mysql.delete_record a2 mst).rows ↔
          (r ∈ mst.rows ∧ some r.1 ≠ (mst.rows.map Prod.fst).max?))
       ∧ (Mysql.delete_record a2 mst).seq = mst.seq
       ∧ Mysql.delete_record a2 mst = Mysql.delete_record none mst
       ∧ (∀ d, d ∈ (Mongo.delete_record (some s) db).docs ↔
          (d ∈ db.docs ∧ d.1 ≠ s))
       ∧ (∀ d, d ∈ (Mongo.delete_record none db).docs ↔
          (d ∈ db.docs ∧ some d.1 ≠ (db.docs.map Prod.fst).max?))
       ∧ (∀ p, p ∈ Redis.delete_record a4 rst ↔
          (p ∈ rst ∧ ∀ m, (Redis.numeric_ids rst).max? = some m → p.1 ≠ Redis.key m))
       ∧ Redis.delete_record a4 rst = Redis.delete_record none rst) := by
  intro a1 st a2 mst s db a4 rst hnd
  refine ⟨?_, rfl, rfl, ?_, rfl, rfl, ?_, ?_, ?_, rfl⟩
  · intro r
    rw [Sqlite.delete_record]
    cases hmax : (st.rows.map Prod.fst).max? with
    | none => simp [hmax]
    | some m => simp [hmax, List.mem_filter, bne_iff_ne]
  · intro r
    rw [Mysql.delete_record]
    cases hmax : (mst.rows.map Prod.fst).max? with
    | none => simp [hmax]
    | some m => simp [hmax, List.mem_filter, bne_iff_ne]
  · intro d
    rw [Mongo.delete_record]
    exact Mongo.mem_eraseP_nodup hnd d
  · intro d
    rw [Mongo.delete_record]
    cases hmax : (db.docs.map Prod.fst).max? with
    | none => simp [hmax]
    | some m => simp only [hmax]; rw [Mongo.mem_eraseP_nodup hnd d]; simp
  · intro p
    rw [Redis.delete_record]
    cases hmax : (Redis.numeric_ids rst).max? with
    | none => simp [hmax]
    | some m =>
      simp only [hmax, Redis.kvDel, List.mem_filter, bne_iff_ne]
      constructor
      · rintro ⟨hp, hne⟩
        exact ⟨hp, by rintro m' hm'; cases hm'; exact hne⟩
      · rintro ⟨hp, hall⟩
        exact ⟨hp, hall m rfl⟩

/-- Claim C1 witness: the amended delete semantics at concrete stores with
ids `{1, 2}` and explicit identity 1 supplied everywhere. -/
theorem C1_delete_semantics_amended_witness :
    ((([(1, "a"), (2, "b")] : List (Int × String)).map Prod.fst).Nodup)
    ∧ ((∀ r, r ∈ (Sqlite.delete_record (some 1) ⟨[(1, "a"), (2, "b")], 2⟩).rows ↔
         (r ∈ ([(1, "a"), (2, "b")] : List (Nat × String))
          ∧ some r.1 ≠ (([(1, "a"), (2, "b")] : List (Nat × String)).map Prod.fst).max?))
       ∧ (Sqlite.delete_record (some 1) ⟨[(1, "a"), (2, "b")], 2⟩).seq = 2
       ∧ Sqlite.delete_record (some 1) ⟨[(1, "a"), (2, "b")], 2⟩
           = Sqlite.delete_record none ⟨[(1, "a"), (2, "b")], 2⟩
       ∧ (∀ r, r ∈ (Mysql.delete_record (some 1) ⟨[(1, "a"), (2, "b")], 2⟩).rows ↔
         (r ∈ ([(1, "a"), (2, "b")] : List (Nat × String))
          ∧ some r.1 ≠ (([(1, "a"), (2, "b")] : List (Nat × String)).map Prod.fst).max?))
       ∧ (Mysql.delete_record (some 1) ⟨[(1, "a"), (2, "b")], 2⟩).seq = 2
       ∧ Mysql.delete_record (some 1) ⟨[(1, "a"), (2, "b")], 2⟩
           = Mysql.delete_record none ⟨[(1, "a"), (2, "b")], 2⟩
       ∧ (∀ d, d ∈ (Mongo.delete_record (some 1) ⟨[(1, "a"), (2, "b")], none⟩).docs ↔
         (d ∈ ([(1, "a"), (2, "b")] : List (Int × String)) ∧ d.1 ≠ 1))
       ∧ (∀ d, d ∈ (Mongo.delete_record none ⟨[(1, "a"), (2, "b")], none⟩).docs ↔
         (d ∈ ([(1, "a"), (2, "b")] : List (Int × String))
          ∧ some d.1 ≠ (([(1, "a"), (2, "b")] : List (Int × String)).map Prod.fst).max?))
       ∧ (∀ p, p ∈ Redis.delete_record (some 1)
            ([("record:1", "a"), ("record:2", "b")] : Redis.Store) ↔
         (p ∈ ([("record:1", "a"), ("record:2", "b")] : Redis.Store)
          ∧ ∀ m, (Redis.numeric_ids
              ([("record:1", "a"), ("record:2", "b")] : Redis.Store)).max? = some m →
              p.1 ≠ Redis.key m))
       ∧ Redis.delete_record (some 1) ([("record:1", "a"), ("record:2", "b")] : Redis.Store)
           = Redis.delete_record none ([("record:1", "a"), ("record:2", "b")] : Redis.Store)) :=
  ⟨by decide,
   C1_delete_semantics_amended (some 1) ⟨[(1, "a"), (2, "b")], 2⟩ (some 1)
     ⟨[(1, "a"), (2, "b")], 2⟩ 1 ⟨[(1, "a"), (2, "b")], none⟩ (some 1)
     [("record:1", "a"), ("record:2", "b")] (by decide)⟩

/-- Claim C8: in the SQLite/MySQL isolated branch every repeat rebuilds the
identical baseline (reset clears rows and the sequence counter), but the
MongoDB isolated branch drops only the `records` collection and leaves the
`record_seq` counter document alone, so with dataset `[Record 1, Record 2]`
the first repeat's baseline carries seqs `[1, 2]` while the second
repeat's carries `[3, 4]` — the repeats do not start from identical store
states. -/
theorem C8_isolated_reset_evaluation :
    (∀ (records : List String) (st st' : Sqlite.Store),
       Runner.sqlite_rebaseline records st = Runner.sqlite_rebaseline records st')
    ∧ (Mongo.isolated_rebaseline ["Record 1", "Record 2"] ⟨[], none⟩).docs
        = [(1, "Record 1"), (2, "Record 2")]
    ∧ (Mongo.isolated_rebaseline ["Record 1", "Record 2"]
        (Mongo.isolated_rebaseline ["Record 1", "Record 2"] ⟨[], none⟩)).docs
        = [(3, "Record 1"), (4, "Record 2")]
    ∧ ([(3, "Record 1"), (4, "Record 2")] : List (Int × String))
        ≠ [(1, "Record 1"), (2, "Record 2")] := by
  refine ⟨fun records st st' => rfl, by decide, by decide, by decide⟩

/-- Claim C10: `_next_seqs(db, n)` with `n <= 0` returns `[]` and leaves
both the records and the counter document untouched; with `n > 0` it
returns exactly `n` consecutive increasing integers ending at the
incremented counter value `top = old + n` and starting at `old + 1 =
top - n + 1`, and it never touches the records. -/
theorem C10_next_seqs_contract :
    ∀ (n : Int) (db : Mongo.Db),
      (Mongo.next_seqs n db).2.docs = db.docs
      ∧ (if n ≤ 0 then Mongo.next_seqs n db = ([], db)
         else ((Mongo.next_seqs n db).1.length = n.toNat
           ∧ (Mongo.next_seqs n db).2.counter = some (db.counter.getD 0 + n)
           ∧ (Mongo.next_seqs n db).1.head? = some (db.counter.getD 0 + 1)
           ∧ (Mongo.next_seqs n db).1.getLast? = some (db.counter.getD 0 + n)
           ∧ (Mongo.next_seqs n db).1.Chain' (fun a b => b = a + 1))) := by
  intro n db
  by_cases h : n ≤ 0
  · rw [if_pos h]
    rw [Mongo.next_seqs, if_pos h]
    exact ⟨rfl, rfl⟩
  · rw [if_neg h]
    have hpos : 0 < n := by omega
    obtain ⟨k, hk⟩ : ∃ k, n.toNat = k + 1 := ⟨n.toNat - 1, by omega⟩
    refine ⟨?_, ?_, ?_, ?_, ?_, ?_⟩
    · rw [Mongo.next_seqs, if_neg h]
    · rw [Mongo.next_seqs, if_neg h]
      simp only [List.length_map, List.length_range]
    · rw [Mongo.next_seqs, if_neg h]
    · rw [Mongo.next_seqs, if_neg h]
      simp only [hk, List.range_succ_eq_map, List.map_cons, List.head?_cons,
        Option.some.injEq, Nat.cast_zero]
      ring
    · rw [Mongo.next_seqs, if_neg h]
      simp only [hk, List.range_succ, List.map_append, List.map_cons, List.map_nil,
        List.getLast?_concat, Option.some.injEq]
      have hkn : (k : Int) = n - 1 := by omega
      rw [hkn]
      ring
    · rw [Mongo.next_seqs, if_neg h]
      rw [List.chain'_map]
      rw [hk, List.chain'_range_succ]
      intro m _
      push_cast
      ring

/-- Claim C3 witness: the amended statement instantiated at concrete
stores. -/
theorem C3_update_missing_amended_witness :
    (3 ∉ ([(1, "a")] : List (Nat × String)).map Prod.fst)
    ∧ (∀ d ∈ ([(1, "a")] : List (Int × String)), d.1 ≠ 2)
    ∧ (Sqlite.update_record 3 "x" ⟨[(1, "a")], 1⟩ = ⟨[(1, "a")], 1⟩
       ∧ Mysql.update_record 3 "x" ⟨[(1, "a")], 1⟩ = ⟨[(1, "a")], 1⟩
       ∧ Mongo.update_record 2 "y" ⟨[(1, "a")], none⟩ = ⟨[(1, "a")], none⟩
       ∧ (Redis.update_record 7 "z" []).lookup (Redis.key 7) = some "z") :=
  ⟨by decide, by decide,
   C3_update_missing_amended 3 "x" ⟨[(1, "a")], 1⟩ ⟨[(1, "a")], 1⟩ 2 "y"
     ⟨[(1, "a")], none⟩ 7 "z" [] (by decide) (by decide) (by decide)⟩

section FindLemmas

/-- MongoDB `find_one` by seq returns the member with that seq when seqs are
distinct. -/
lemma Mongo.find_first_of_nodup {docs : List (Int × String)} {t : Int} {nm : String}
    (h : (docs.map Prod.fst).Nodup) (hm : (t, nm) ∈ docs) :
    docs.find? (fun d => d.1 == t) = some (t, nm) := by
  induction docs with
  | nil => cases hm
  | cons a l ih =>
    rw [List.map_cons, List.nodup_cons] at h
    rcases List.mem_cons.1 hm with rfl | hm
    · exact List.find?_cons_of_pos l (by simp)
    · have ha : a.1 ≠ t := by
        intro hat
        have : t ∈ l.map Prod.fst := by
          have := List.mem_map_of_mem Prod.fst hm
          simpa using this
        rw [← hat] at this
        exact h.1 this
      rw [List.find?_cons_of_neg l (by simpa using ha)]
      exact ih h.2 hm

end FindLemmas

/-- Claim C7: a `readById` miss is an explicit absent value, never an
exception and never confusable with a found record.  The MongoDB adaptor
returns `None` on a miss and the matching `(seq, name)` pair on a hit
(under distinct seqs); the Redis adaptor always returns the pair
`(record_id, GET record:<id>)`, whose value slot is `none` exactly when no
record holds the identity, and `(id, some value)` when one does. -/
theorem C7_read_by_id_semantics :
    ∀ (s t : Int) (nm : String) (db1 db2 : Mongo.Db) (id1 id2 : Nat) (w : String)
      (r1 r2 : Redis.Store),
      (∀ d ∈ db1.docs, d.1 ≠ s) →
      (db2.docs.map Prod.fst).Nodup →
      (t, nm) ∈ db2.docs →
      r2.lookup (Redis.key id2) = some w →
      (Mongo.read_by_id s db1 = none
       ∧ Mongo.read_by_id t db2 = some (t, nm)
       ∧ ((Redis.read_by_id id1 r1).2 = none ↔ r1.lookup (Redis.key id1) = none)
       ∧ Redis.read_by_id id2 r2 = (id2, some w)) := by
  intro s t nm db1 db2 id1 id2 w r1 r2 h1 h2 h3 h4
  refine ⟨?_, ?_, Iff.rfl, ?_⟩
  · rw [Mongo.read_by_id]
    exact List.find?_eq_none.2 (fun x hx => by simpa using h1 x hx)
  · rw [Mongo.read_by_id]
    exact Mongo.find_first_of_nodup h2 h3
  · rw [Redis.read_by_id, h4]

/-- Claim C7 witness: miss and hit instantiated at concrete stores. -/
theorem C7_read_by_id_semantics_witness :
    (∀ d ∈ ([(1, "a")] : List (Int × String)), d.1 ≠ 2)
    ∧ ((([(1, "a")] : List (Int × String)).map Prod.fst).Nodup)
    ∧ ((1, "a") ∈ ([(1, "a")] : List (Int × String)))
    ∧ (([("record:1", "a")] : Redis.Store).lookup (Redis.key 1) = some "a")
    ∧ (Mongo.read_by_id 2 ⟨[(1, "a")], none⟩ = none
       ∧ Mongo.read_by_id 1 ⟨[(1, "a")], none⟩ = some (1, "a")
       ∧ ((Redis.read_by_id 9 ([] : Redis.Store)).2 = none ↔
           ([] : Redis.Store).lookup (Redis.key 9) = none)
       ∧ Redis.read_by_id 1 ([("record:1", "a")] : Redis.Store) = (1, some "a")) :=
  ⟨by decide, by decide, by decide, by decide,
   C7_read_by_id_semantics 2 1 "a" ⟨[(1, "a")], none⟩ ⟨[(1, "a")], none⟩ 9 1 "a"
     [] [("record:1", "a")] (by decide) (by decide) (by decide) (by decide)⟩

/-- Claim C9: the Redis counter key `record:seq` is never visible as a
record: it never parses as a numeric id, no record key ever equals it,
its binding contributes nothing to `_numeric_ids`, every pair returned by
`read_all` or `filter_contains` carries a numeric id of the store,
`delete_record` never touches the counter binding, and the only key
`delete_record` ever removes is `record:<m>` for the maximal numeric id
`m`. -/
theorem C9_seq_key_never_a_record :
    Redis.parseRecordKey Redis.SEQ_KEY = none
    ∧ (∀ i : Nat, Redis.key i ≠ Redis.SEQ_KEY)
    ∧ (∀ (st : Redis.Store) (v : String),
        Redis.numeric_ids ((Redis.SEQ_KEY, v) :: st) = Redis.numeric_ids st)
    ∧ (∀ st : Redis.Store, ∀ p ∈ Redis.read_all st, p.1 ∈ Redis.numeric_ids st)
    ∧ (∀ (sub : String) (st : Redis.Store), ∀ p ∈ Redis.filter_contains sub st,
        p.1 ∈ Redis.numeric_ids st)
    ∧ (∀ (a : Option Nat) (st : Redis.Store),
        (Redis.delete_record a st).lookup Redis.SEQ_KEY = st.lookup Redis.SEQ_KEY)
    ∧ (∀ (a : Option Nat) (st : Redis.Store), ∀ p ∈ st,
        p ∉ Redis.delete_record a st →
        ∃ m, (Redis.numeric_ids st).max? = some m ∧ p.1 = Redis.key m) := by
  refine ⟨by decide, Redis.key_ne_seq_key, ?_, ?_, ?_, ?_, ?_⟩
  · intro st v
    rw [Redis.numeric_ids, Redis.numeric_ids, List.map_cons, List.filterMap_cons]
    rw [show Redis.parseRecordKey Redis.SEQ_KEY = none from by decide]
  · intro st p hp
    rw [Redis.read_all] at hp
    obtain ⟨i, hi, rfl⟩ := List.mem_map.1 hp
    exact (List.perm_insertionSort (· ≤ ·) (Redis.numeric_ids st)).mem_iff.1 hi
  · intro sub st p hp
    rw [Redis.filter_contains] at hp
    obtain ⟨i, hi, hg⟩ := List.mem_filterMap.1 hp
    have hi' : i ∈ Redis.numeric_ids st :=
      (List.perm_insertionSort (· ≤ ·) (Redis.numeric_ids st)).mem_iff.1 hi
    by_cases hc : sub.data.IsInfix ((st.lookup (Redis.key i)).getD "").data
    · rw [if_pos hc] at hg
      cases hg
      exact hi'
    · rw [if_neg hc] at hg
      cases hg
  · intro a st
    rw [Redis.delete_record]
    cases hmax : (Redis.numeric_ids st).max? with
    | none => rfl
    | some m => exact Redis.lookup_kvDel_ne (fun h => Redis.key_ne_seq_key m h.symm) st
  · intro a st p hp hnp
    rw [Redis.delete_record] at hnp
    cases hmax : (Redis.numeric_ids st).max? with
    | none => rw [hmax] at hnp; exact absurd hp hnp
    | some m =>
      rw [hmax] at hnp
      refine ⟨m, rfl, ?_⟩
      by_contra hne
      exact hnp (List.mem_filter.2 ⟨hp, by simpa using hne⟩)

section SortedReadLemmas

/-- The ids of a batch of freshly inserted rows are the reserved range. -/
lemma map_fst_zip_range (seq : Nat) (recs : List String) :
    (List.zip ((List.range recs.length).map (fun i => seq + 1 + i)) recs).map Prod.fst
      = (List.range recs.length).map (fun i => seq + 1 + i) := by
  apply List.map_fst_zip
  simp

/-- The reserved id range is strictly increasing. -/
lemma pairwise_lt_reserved (seq n : Nat) :
    ((List.range n).map (fun i => seq + 1 + i)).Pairwise (· < ·) :=
  (List.pairwise_lt_range n).map _ (fun a b h => by omega)

/-- The SQL-style insert preserves the well-formed row invariant. -/
lemma wf_insert_rows {rows : List (Nat × String)} {seq : Nat} (recs : List String)
    (h1 : (rows.map Prod.fst).Pairwise (· < ·))
    (h2 : ∀ i ∈ rows.map Prod.fst, i ≤ seq) :
    (((rows ++ List.zip ((List.range recs.length).map (fun i => seq + 1 + i)) recs).map
        Prod.fst).Pairwise (· < ·))
    ∧ ∀ i ∈ (rows ++ List.zip ((List.range recs.length).map (fun i => seq + 1 + i)) recs).map
        Prod.fst, i ≤ seq + recs.length := by
  rw [List.map_append, map_fst_zip_range]
  constructor
  · rw [List.pairwise_append]
    refine ⟨h1, pairwise_lt_reserved seq recs.length, ?_⟩
    intro a ha b hb
    obtain ⟨i, _, rfl⟩ := List.mem_map.1 hb
    have := h2 a ha
    omega
  · intro i hi
    rcases List.mem_append.1 hi with hi | hi
    · have := h2 i hi
      omega
    · obtain ⟨j, hj, rfl⟩ := List.mem_map.1 hi
      have := List.mem_range.1 hj
      omega

/-- The SQL-style update does not change the id column. -/
lemma map_fst_update (rows : List (Nat × String)) (record_id : Nat) (v : String) :
    (rows.map (fun r => if r.1 = record_id then (r.1, v) else r)).map Prod.fst
      = rows.map Prod.fst := by
  rw [List.map_map]
  apply List.map_congr_left
  intro r _
  by_cases h : r.1 = record_id <;> simp [h]

/-- The SQL-style max-delete keeps a sub-multiset of the rows. -/
lemma delete_rows_sublist (rows : List (Nat × String)) :
    List.Sublist
      (match (rows.map Prod.fst).max? with
        | none => rows
        | some m => rows.filter (fun r => r.1 != m)) rows := by
  cases (rows.map Prod.fst).max? with
  | none => exact List.Sublist.refl rows
  | some m => exact List.filter_sublist rows

end SortedReadLemmas

/-- Claim C6: `readAll` is deterministically ordered ascending by identity
for every adaptor.  For SQLite/MySQL, `SELECT *` returns the physical row
order, and every well-formed (reachable) table state keeps that order
strictly ascending in id — the invariant holds after reset and is
preserved by insert, update and delete.  The MongoDB adaptor sorts by
`seq` and returns a permutation of the live documents; the Redis adaptor
sorts the numeric ids, returning exactly the numeric records with their
stored values. -/
theorem C6_read_all_sorted :
    ∀ (st : Sqlite.Store) (mst : Mysql.Store) (db : Mongo.Db) (rst : Redis.Store)
      (recs : List String) (i : Nat) (v : String) (a : Option Nat),
      Sqlite.Wf st → Mysql.Wf mst →
      ((Sqlite.read_all st = st.rows
          ∧ List.Sorted (· < ·) ((Sqlite.read_all st).map Prod.fst)
          ∧ Sqlite.Wf (Sqlite.insert_records recs st)
          ∧ Sqlite.Wf (Sqlite.update_record i v st)
          ∧ Sqlite.Wf (Sqlite.delete_record a st)
          ∧ Sqlite.Wf (Sqlite.reset_table st))
       ∧ (Mysql.read_all mst = mst.rows
          ∧ List.Sorted (· < ·) ((Mysql.read_all mst).map Prod.fst)
          ∧ Mysql.Wf (Mysql.insert_records recs mst)
          ∧ Mysql.Wf (Mysql.update_record i v mst)
          ∧ Mysql.Wf (Mysql.delete_record a mst)
          ∧ Mysql.Wf (Mysql.reset_table mst))
       ∧ ((Mongo.read_all db).Perm db.docs
          ∧ List.Sorted (· ≤ ·) ((Mongo.read_all db).map Prod.fst))
       ∧ (((Redis.read_all rst).map Prod.fst).Perm
            (List.insertionSort (· ≤ ·) (Redis.numeric_ids rst))
          ∧ ((Redis.read_all rst).map Prod.fst).Perm (Redis.numeric_ids rst)
          ∧ List.Sorted (· ≤ ·) ((Redis.read_all rst).map Prod.fst)
          ∧ ∀ p ∈ Redis.read_all rst, p.2 = rst.lookup (Redis.key p.1))) := by
  intro st mst db rst recs i v a hwf hwfm
  refine ⟨⟨rfl, hwf.1, ?_, ?_, ?_, ?_⟩, ⟨rfl, hwfm.1, ?_, ?_, ?_, ?_⟩, ⟨?_, ?_⟩,
    ⟨?_, ?_, ?_, ?_⟩⟩
  · exact wf_insert_rows recs hwf.1 hwf.2
  · refine ⟨?_, ?_⟩
    · have h : ((st.rows.map (fun r => if r.1 = i then (r.1, v) else r)).map
          Prod.fst).Pairwise (· < ·) := by
        rw [map_fst_update]
        exact hwf.1
      exact h
    · intro j hj
      have hj2 : j ∈ (st.rows.map (fun r => if r.1 = i then (r.1, v) else r)).map
          Prod.fst := hj
      rw [map_fst_update] at hj2
      exact hwf.2 j hj2
  · refine ⟨?_, ?_⟩
    · have h : ((match (st.rows.map Prod.fst).max? with
          | none => st.rows
          | some m => st.rows.filter (fun r => r.1 != m)).map Prod.fst).Pairwise (· < ·) :=
        List.Pairwise.sublist ((delete_rows_sublist st.rows).map Prod.fst) hwf.1
      exact h
    · intro j hj
      have hj2 : j ∈ (match (st.rows.map Prod.fst).max? with
          | none => st.rows
          | some m => st.rows.filter (fun r => r.1 != m)).map Prod.fst := hj
      have hmem : j ∈ st.rows.map Prod.fst :=
        ((delete_rows_sublist st.rows).map Prod.fst).subset hj2
      exact hwf.2 j hmem
  · exact ⟨List.Pairwise.nil, by simp [Sqlite.reset_table]⟩
  · exact wf_insert_rows recs hwfm.1 hwfm.2
  · refine ⟨?_, ?_⟩
    · have h : ((mst.rows.map (fun r => if r.1 = i then (r.1, v) else r)).map
          Prod.fst).Pairwise (· < ·) := by
        rw [map_fst_update]
        exact hwfm.1
      exact h
    · intro j hj
      have hj2 : j ∈ (mst.rows.map (fun r => if r.1 = i then (r.1, v) else r)).map
          Prod.fst := hj
      rw [map_fst_update] at hj2
      exact hwfm.2 j hj2
  · refine ⟨?_, ?_⟩
    · have h : ((match (mst.rows.map Prod.fst).max? with
          | none => mst.rows
          | some m => mst.rows.filter (fun r => r.1 != m)).map Prod.fst).Pairwise (· < ·) :=
        List.Pairwise.sublist ((delete_rows_sublist mst.rows).map Prod.fst) hwfm.1
      exact h
    · intro j hj
      have hj2 : j ∈ (match (mst.rows.map Prod.fst).max? with
          | none => mst.rows
          | some m => mst.rows.filter (fun r => r.1 != m)).map Prod.fst := hj
      have hmem : j ∈ mst.rows.map Prod.fst :=
        ((delete_rows_sublist mst.rows).map Prod.fst).subset hj2
      exact hwfm.2 j hmem
  · exact ⟨List.Pairwise.nil, by simp [Mysql.reset_table]⟩
  · exact List.perm_insertionSort _ db.docs
  · have hs : List.Sorted (fun a' b' : Int × String => a'.1 ≤ b'.1) (Mongo.read_all db) := by
      haveI : IsTotal (Int × String) (fun a' b' => a'.1 ≤ b'.1) :=
        ⟨fun a' b' => le_total a'.1 b'.1⟩
      haveI : IsTrans (Int × String) (fun a' b' => a'.1 ≤ b'.1) :=
        ⟨fun _ _ _ h1 h2 => le_trans h1 h2⟩
      exact List.sorted_insertionSort _ db.docs
    rw [List.Sorted, List.pairwise_map]
    exact hs
  · rw [Redis.read_all, List.map_map]
    have : (Prod.fst ∘ fun i' : Nat => (i', rst.lookup (Redis.key i'))) = id := rfl
    rw [this, List.map_id]
  · rw [Redis.read_all, List.map_map]
    have : (Prod.fst ∘ fun i' : Nat => (i', rst.lookup (Redis.key i'))) = id := rfl
    rw [this, List.map_id]
    exact List.perm_insertionSort _ _
  · rw [Redis.read_all, List.map_map]
    have : (Prod.fst ∘ fun i' : Nat => (i', rst.lookup (Redis.key i'))) = id := rfl
    rw [this, List.map_id]
    exact List.sorted_insertionSort _ _
  · intro p hp
    rw [Redis.read_all] at hp
    obtain ⟨j, _, rfl⟩ := List.mem_map.1 hp
    rfl

/-- Claim C6 witness: the sorted-read statement at concrete well-formed
stores. -/
theorem C6_read_all_sorted_witness :
    Sqlite.Wf ⟨[(1, "a"), (2, "b")], 2⟩ ∧ Mysql.Wf ⟨[(1, "a"), (2, "b")], 2⟩
    ∧ ((Sqlite.read_all ⟨[(1, "a"), (2, "b")], 2⟩ = [(1, "a"), (2, "b")]
          ∧ List.Sorted (· < ·) ((Sqlite.read_all ⟨[(1, "a"), (2, "b")], 2⟩).map Prod.fst)
          ∧ Sqlite.Wf (Sqlite.insert_records ["c"] ⟨[(1, "a"), (2, "b")], 2⟩)
          ∧ Sqlite.Wf (Sqlite.update_record 1 "z" ⟨[(1, "a"), (2, "b")], 2⟩)
          ∧ Sqlite.Wf (Sqlite.delete_record (some 1) ⟨[(1, "a"), (2, "b")], 2⟩)
          ∧ Sqlite.Wf (Sqlite.reset_table ⟨[(1, "a"), (2, "b")], 2⟩))
       ∧ (Mysql.read_all ⟨[(1, "a"), (2, "b")], 2⟩ = [(1, "a"), (2, "b")]
          ∧ List.Sorted (· < ·) ((Mysql.read_all ⟨[(1, "a"), (2, "b")], 2⟩).map Prod.fst)
          ∧ Mysql.Wf (Mysql.insert_records ["c"] ⟨[(1, "a"), (2, "b")], 2⟩)
          ∧ Mysql.Wf (Mysql.update_record 1 "z" ⟨[(1, "a"), (2, "b")], 2⟩)
          ∧ Mysql.Wf (Mysql.delete_record (some 1) ⟨[(1, "a"), (2, "b")], 2⟩)
          ∧ Mysql.Wf (Mysql.reset_table ⟨[(1, "a"), (2, "b")], 2⟩))
       ∧ ((Mongo.read_all ⟨[(2, "b"), (1, "a")], none⟩).Perm [(2, "b"), (1, "a")]
          ∧ List.Sorted (· ≤ ·) ((Mongo.read_all ⟨[(2, "b"), (1, "a")], none⟩).map Prod.fst))
       ∧ (((Redis.read_all [("record:2", "b"), ("record:1", "a")]).map Prod.fst).Perm
            (List.insertionSort (· ≤ ·)
              (Redis.numeric_ids [("record:2", "b"), ("record:1", "a")]))
          ∧ ((Redis.read_all [("record:2", "b"), ("record:1", "a")]).map Prod.fst).Perm
            (Redis.numeric_ids [("record:2", "b"), ("record:1", "a")])
          ∧ List.Sorted (· ≤ ·)
            ((Redis.read_all [("record:2", "b"), ("record:1", "a")]).map Prod.fst)
          ∧ ∀ p ∈ Redis.read_all [("record:2", "b"), ("record:1", "a")],
              p.2 = List.lookup (Redis.key p.1) [("record:2", "b"), ("record:1", "a")])) :=
  ⟨⟨by decide, by decide⟩, ⟨by decide, by decide⟩,
   C6_read_all_sorted ⟨[(1, "a"), (2, "b")], 2⟩ ⟨[(1, "a"), (2, "b")], 2⟩
     ⟨[(2, "b"), (1, "a")], none⟩ [("record:2", "b"), ("record:1", "a")]
     ["c"] 1 "z" (some 1) ⟨by decide, by decide⟩ ⟨by decide, by decide⟩⟩

section InsertLoopLemmas

/-- Specification of the Redis per-record insert loop: starting from a
store whose counter holds the decimal rendering of `c`, inserting `vs`
leaves the counter at `c + len(vs)`, binds `record:<c+1+j>` to the `j`-th
value, and changes no other key. -/
lemma Redis.insertLoop_spec (vs : List String) :
    ∀ (st : Redis.Store) (c : Nat),
      st.lookup Redis.SEQ_KEY = some (Nat.repr c) →
      ((Redis.insertLoop vs st).lookup Redis.SEQ_KEY = some (Nat.repr (c + vs.length))
       ∧ (∀ (j : Nat) (hj : j < vs.length),
           (Redis.insertLoop vs st).lookup (Redis.key (c + 1 + j))
             = some (vs.get ⟨j, hj⟩))
       ∧ (∀ k : String, k ≠ Redis.SEQ_KEY →
           (∀ j : Nat, j < vs.length → k ≠ Redis.key (c + 1 + j)) →
           (Redis.insertLoop vs st).lookup k = st.lookup k)) := by
  induction vs with
  | nil =>
    intro st c hc
    refine ⟨by simpa using hc, ?_, ?_⟩
    · intro j hj
      simp at hj
    · intro k _ _
      rfl
  | cons v vs ih =>
    intro st c hc
    have hid : Redis.strToNat ((st.lookup Redis.SEQ_KEY).getD "0") + 1 = c + 1 := by
      rw [hc]
      simp only [Option.getD_some]
      rw [show Redis.strToNat (Nat.repr c) = c from digitsToNat_repr c]
    have hloop : Redis.insertLoop (v :: vs) st
        = Redis.insertLoop vs (Redis.kvSet (Redis.key (c + 1)) v
            (Redis.kvSet Redis.SEQ_KEY (Nat.repr (c + 1)) st)) := by
      conv_lhs => rw [Redis.insertLoop]
      rw [hid]
    have hst' : (Redis.kvSet (Redis.key (c + 1)) v
        (Redis.kvSet Redis.SEQ_KEY (Nat.repr (c + 1)) st)).lookup Redis.SEQ_KEY
        = some (Nat.repr (c + 1)) := by
      rw [Redis.lookup_kvSet_ne (Ne.symm (Redis.key_ne_seq_key (c + 1)))]
      exact Redis.lookup_kvSet_self _ _ _
    obtain ⟨ihc, ihid, ihframe⟩ := ih _ (c + 1) hst'
    refine ⟨?_, ?_, ?_⟩
    · rw [hloop, ihc]
      simp only [List.length_cons]
      rw [show c + 1 + vs.length = c + (vs.length + 1) from by omega]
    · intro j hj
      cases j with
      | zero =>
        rw [hloop]
        simp only [Nat.add_zero]
        rw [ihframe (Redis.key (c + 1)) (Redis.key_ne_seq_key (c + 1))
          (fun j' hj' hkeq => absurd (Redis.key_injective hkeq) (by omega))]
        rw [Redis.lookup_kvSet_self]
        rfl
      | succ j =>
        rw [hloop]
        rw [show c + 1 + (j + 1) = c + 1 + 1 + j from by omega]
        have hj2 : j < vs.length := by
          simp only [List.length_cons] at hj
          omega
        rw [ihid j hj2]
        rfl
    · intro k hk1 hk2
      rw [hloop]
      rw [ihframe k hk1 (fun j hj hkeq => by
        have hcontra := hk2 (j + 1) (by simp only [List.length_cons]; omega)
        rw [show c + 1 + (j + 1) = c + 1 + 1 + j from by omega] at hcontra
        exact hcontra hkeq)]
      have hk0 : k ≠ Redis.key (c + 1) := by
        have h0 := hk2 0 (by simp only [List.length_cons]; omega)
        simpa using h0
      rw [Redis.lookup_kvSet_ne hk0]
      rw [Redis.lookup_kvSet_ne hk1]

end InsertLoopLemmas

/-- Claim C5 counterexample: the MongoDB counter-document strategy does
not initialise a missing counter to the maximum observed identity.  With
a pre-existing record of seq 1 and no counter document, inserting one
record reserves seq 1 again: the collection ends with two records of the
same identity. -/
theorem C5_mongo_counter_counterexample :
    (Mongo.insert_records ["b"] ⟨[(1, "a")], none⟩).docs = [(1, "a"), (1, "b")]
    ∧ ¬ ((Mongo.insert_records ["b"] ⟨[(1, "a")], none⟩).docs.map Prod.fst).Nodup := by
  refine ⟨by decide, by decide⟩

/-- Claim C5 (amended): only the Redis (counter-key) adaptor initialises a
missing counter to the current maximum observed identity `M`: after
`insert_records` on a store without `record:seq`, the counter holds
`M + len(records)`, the `j`-th value lands under identity `M + 1 + j`, and
none of the issued identities collides with a pre-existing numeric id.
The MongoDB (counter-document) adaptor instead upserts the counter from 0:
with a missing counter document, a reservation of `n > 0` seqs sets the
counter to `n` and issues identities starting at 1, regardless of what the
collection already holds. -/
theorem C5_counter_cold_start_amended :
    ∀ (records : List String) (rst : Redis.Store) (n : Int) (db : Mongo.Db),
      rst.lookup Redis.SEQ_KEY = none →
      db.counter = none →
      0 < n →
      (((Redis.insert_records records rst).lookup Redis.SEQ_KEY
          = some (Nat.repr ((Redis.numeric_ids rst).max?.getD 0 + records.length)))
       ∧ (∀ (j : Nat) (hj : j < records.length),
           (Redis.insert_records records rst).lookup
             (Redis.key ((Redis.numeric_ids rst).max?.getD 0 + 1 + j))
             = some (records.get ⟨j, hj⟩))
       ∧ (∀ j : Nat, j < records.length →
           ((Redis.numeric_ids rst).max?.getD 0 + 1 + j) ∉ Redis.numeric_ids rst)
       ∧ (Mongo.next_seqs n db).2.counter = some n
       ∧ (Mongo.next_seqs n db).1.head? = some 1) := by
  intro records rst n db hl hc hn
  have hins : Redis.insert_records records rst
      = Redis.insertLoop records (Redis.kvSet Redis.SEQ_KEY
          (Nat.repr ((Redis.numeric_ids rst).max?.getD 0)) rst) := by
    rw [Redis.insert_records, hl]
    rfl
  have hst1 : (Redis.kvSet Redis.SEQ_KEY
      (Nat.repr ((Redis.numeric_ids rst).max?.getD 0)) rst).lookup Redis.SEQ_KEY
      = some (Nat.repr ((Redis.numeric_ids rst).max?.getD 0)) :=
    Redis.lookup_kvSet_self _ _ _
  obtain ⟨hcnt, hid, hframe⟩ :=
    Redis.insertLoop_spec records _ ((Redis.numeric_ids rst).max?.getD 0) hst1
  refine ⟨?_, ?_, ?_, ?_, ?_⟩
  · rw [hins]
    exact hcnt
  · intro j hj
    rw [hins]
    exact hid j hj
  · intro j _ hmem
    have hle : (Redis.numeric_ids rst).max?.getD 0 + 1 + j
        ≤ (Redis.numeric_ids rst).max?.getD 0 :=
      List.le_max?_getD_of_mem hmem
    omega
  · rw [Mongo.next_seqs, if_neg (by omega), hc]
    simp
  · rw [Mongo.next_seqs, if_neg (by omega)]
    have htn : ∃ k, n.toNat = k + 1 := ⟨n.toNat - 1, by omega⟩
    obtain ⟨k, hk⟩ := htn
    simp only [hk, List.range_succ_eq_map, List.map_cons, List.head?_cons,
      Option.some.injEq, Nat.cast_zero, hc]
    simp

/-- Claim C5 witness: the amended cold-start statement on a Redis store
holding only the numeric record `record:5` (so the maximum observed id is
5) and an empty MongoDB store without a counter document. -/
theorem C5_counter_cold_start_amended_witness :
    (([("record:5", "v")] : Redis.Store).lookup Redis.SEQ_KEY = none)
    ∧ ((⟨[(1, "a")], none⟩ : Mongo.Db).counter = none)
    ∧ ((0 : Int) < 1)
    ∧ (((Redis.insert_records ["x"] [("record:5", "v")]).lookup Redis.SEQ_KEY
          = some (Nat.repr ((Redis.numeric_ids
              ([("record:5", "v")] : Redis.Store)).max?.getD 0 + ["x"].length)))
       ∧ (∀ (j : Nat) (hj : j < ["x"].length),
           (Redis.insert_records ["x"] [("record:5", "v")]).lookup
             (Redis.key ((Redis.numeric_ids
                ([("record:5", "v")] : Redis.Store)).max?.getD 0 + 1 + j))
             = some (["x"].get ⟨j, hj⟩))
       ∧ (∀ j : Nat, j < ["x"].length →
           ((Redis.numeric_ids ([("record:5", "v")] : Redis.Store)).max?.getD 0 + 1 + j)
             ∉ Redis.numeric_ids ([("record:5", "v")] : Redis.Store))
       ∧ (Mongo.next_seqs 1 ⟨[(1, "a")], none⟩).2.counter = some 1
       ∧ (Mongo.next_seqs 1 ⟨[(1, "a")], none⟩).1.head? = some 1) :=
  ⟨by decide, rfl, by decide,
   C5_counter_cold_start_amended ["x"] [("record:5", "v")] 1 ⟨[(1, "a")], none⟩
     (by decide) rfl (by decide)⟩
